import Mathlib

/-!
Verification development for the Piso print kiosk server.

The repository consists of a single server file shipped in two
near-duplicate revisions (an older pdf2pic-based revision and a newer
Ghostscript-based revision), plus a browser-side page-selection script.
The definitions below are shallow embeddings of those functions:

* string manipulation is modelled on the character-list representation
  of Lean strings, mirroring the JavaScript string methods used by the
  source (split, trim, startsWith, first-occurrence replace);
* images are modelled as a width, a height and a pixel function; reading
  past the end of the raw RGB buffer in JavaScript yields an undefined
  value on every channel, which the gray test of the scanner treats
  exactly like a neutral gray pixel, so out-of-range reads are modelled
  as the pixel (0, 0, 0);
* the two revisions of the cost endpoint share all their structure except
  the cache filename separator and the ink-surcharge condition, so they
  are obtained from one core definition at two parameter choices;
* the grayscale conversion performed by the sharp library is modelled by
  an arbitrary luminance function applied to all three channels, which is
  the only property of it the code relies on.
-/

namespace PisoPrint

/-- Model of JavaScript Math.round: round half toward positive infinity. -/
def jsRound (q : ℚ) : ℤ := ⌊q + 1/2⌋

/-- Splits a character list at every occurrence of the separator character,
mirroring JavaScript String.prototype.split with a one-character separator
(the empty string splits to a single empty field). -/
def splitChar (c : Char) : List Char → List (List Char)
  | [] => [[]]
  | a :: as =>
    match splitChar c as with
    | [] => [[a]]
    | g :: gs => if a = c then [] :: g :: gs else (a :: g) :: gs

/-- JavaScript split on a one-character separator, on strings. -/
def jsSplit (c : Char) (s : String) : List String :=
  (splitChar c s.data).map (fun l => (⟨l⟩ : String))

/-- Model of JavaScript String.prototype.trim (whitespace at both ends). -/
def jsTrim (s : String) : String :=
  ⟨((s.data.dropWhile Char.isWhitespace).reverse.dropWhile Char.isWhitespace).reverse⟩

/-- Boolean test that the first list is an initial segment of the second. -/
def isPrefixList : List Char → List Char → Bool
  | [], _ => true
  | _ :: _, [] => false
  | a :: as, b :: bs => a == b && isPrefixList as bs

/-- Model of JavaScript String.prototype.startsWith. -/
def jsStartsWith (s p : String) : Bool := isPrefixList p.data s.data

/-- Model of JavaScript String.prototype.endsWith. -/
def jsEndsWith (s p : String) : Bool := isPrefixList p.data.reverse s.data.reverse

/-- Removes the first occurrence of the pattern from the list, mirroring
JavaScript String.prototype.replace with an empty replacement string. -/
def stripFirst (pat : List Char) : List Char → List Char
  | [] => []
  | a :: as => if isPrefixList pat (a :: as) then (a :: as).drop pat.length else a :: stripFirst pat as

/-- JavaScript first-occurrence replace by the empty string, on strings. -/
def jsReplaceFirst (s pat : String) : String := ⟨stripFirst pat.data s.data⟩

/-- Boolean substring test. -/
def hasSubstrList (pat : List Char) : List Char → Bool
  | [] => isPrefixList pat []
  | a :: as => isPrefixList pat (a :: as) || hasSubstrList pat as

/-- Model of JavaScript String.prototype.includes. -/
def jsIncludes (s pat : String) : Bool := hasSubstrList pat.data s.data

/-- Nonempty list of decimal digit characters. -/
def isDigits (l : List Char) : Bool := !l.isEmpty && l.all Char.isDigit

/-- Value of a list of decimal digit characters. -/
def natOfDigits (l : List Char) : ℕ := l.foldl (fun n c => n * 10 + (c.toNat - 48)) 0

/-- Model of the JavaScript Number() conversion on the numeral shapes the
server can meet: the empty string converts to 0, optionally signed decimal
integer numerals convert to their value, everything else is NaN (none).
Fractional, hexadecimal and exponent numerals are outside the shapes the
cost endpoint and the claims exercise and are mapped to none. -/
def jsNumber (s : String) : Option ℤ :=
  match s.data with
  | [] => some 0
  | '-' :: rest => if isDigits rest then some (-(natOfDigits rest : ℤ)) else none
  | '+' :: rest => if isDigits rest then some ((natOfDigits rest : ℤ)) else none
  | l => if isDigits l then some ((natOfDigits l : ℤ)) else none

/-- A decoded page image: dimensions plus an RGB pixel function indexed by
row then column, as laid out in the raw buffer the scanner walks. -/
structure Image where
  width : ℕ
  height : ℕ
  px : ℕ → ℕ → ℕ × ℕ × ℕ

/-- Reading the raw RGB buffer at row y, column x (the scanner only uses
columns below the width). Rows at or past the height read beyond the
buffer; in JavaScript every channel of such a read is undefined and the
channel-equality test then behaves as on a neutral gray pixel, modelled
here by the pixel (0, 0, 0). -/
def bufferPixel (img : Image) (y x : ℕ) : ℕ × ℕ × ℕ :=
  if y < img.height then img.px y x else (0, 0, 0)

/-- A pixel counts as inked when its red, green and blue values are not all
equal, exactly the negated test of the scanner source. -/
def isColored (p : ℕ × ℕ × ℕ) : Bool := !(p.1 == p.2.1 && p.2.1 == p.2.2)

/-- Height of the first eleven horizontal bands of the scanner. -/
def sectionHeight (img : Image) : ℕ := max 1 (img.height / 12)

/-- First row of band i. -/
def bandStart (img : Image) (i : ℕ) : ℕ := i * sectionHeight img

/-- One past the last row of band i: the twelfth band absorbs the remainder
of the integer division by running to the image height. -/
def bandEnd (img : Image) (i : ℕ) : ℕ :=
  if i = 11 then img.height else (i + 1) * sectionHeight img

/-- Whether band i contains an inked pixel, scanning rows top to bottom and
pixels left to right as the source loops do. -/
def bandUsed (img : Image) (i : ℕ) : Bool :=
  (List.range' (bandStart img i) (bandEnd img i - bandStart img i)).any fun y =>
    (List.range img.width).any fun x => isColored (bufferPixel img y x)

/-- Embedding of scanUsedSections: the count of used bands among the twelve
horizontal bands of the image. -/
def scanUsedSections (img : Image) : ℕ :=
  ((List.range 12).filter (fun i => bandUsed img i)).length

/-- Grayscale conversion applied by the sharp library, modelled by an
arbitrary luminance function written to all three channels. -/
def greyscale (luma : ℕ × ℕ × ℕ → ℕ) (img : Image) : Image :=
  ⟨img.width, img.height, fun y x =>
    (luma (img.px y x), luma (img.px y x), luma (img.px y x))⟩

/-- Embedding of convertToBWIfNeeded: grayscale the cached page exactly when
the requested color mode is bw, otherwise leave it untouched. -/
def convertToBWIfNeeded (luma : ℕ × ℕ × ℕ → ℕ) (color : String) (img : Image) : Image :=
  if color = "bw" then greyscale luma img else img

/-- Clamp of one page-selection endpoint into the range from 1 to the page
count, as Math.max(1, Math.min(n, totalPages)). -/
def clampPage (n N : ℕ) : ℕ := max 1 (min n N)

/-- Recognizer for the range token shape of the client parser (two digit
runs joined by a hyphen) together with the two parsed endpoints. -/
def rangeTok (part : String) : Option (ℕ × ℕ) :=
  match splitChar '-' part.data with
  | [a, b] => if isDigits a && isDigits b then some (natOfDigits a, natOfDigits b) else none
  | _ => none

/-- Insertion into the JavaScript Set of selected pages, preserving first
insertion order as Set iteration does. -/
def addPage (pages : List ℕ) (n : ℕ) : List ℕ := if n ∈ pages then pages else pages ++ [n]

/-- Insertion of every page of an expanded range token. -/
def addRange (pages : List ℕ) (s e : ℕ) : List ℕ :=
  (List.range' s (e + 1 - s)).foldl addPage pages

/-- JavaScript array join with a separator. -/
def joinWith (sep : String) : List String → String
  | [] => ""
  | a :: as => as.foldl (fun acc b => acc ++ sep ++ b) a

/-- The token loop of parsePageSelection, carrying the page set and the
corrected token list. -/
def parseLoop (N : ℕ) : List String → List ℕ → List String → List ℕ × List String
  | [], pages, corrected => (pages, corrected)
  | part :: rest, pages, corrected =>
    match rangeTok part with
    | some ab =>
      let s0 := clampPage ab.1 N
      let e0 := clampPage ab.2 N
      let s1 := if e0 < s0 then e0 else s0
      let e1 := if e0 < s0 then s0 else e0
      parseLoop N rest (addRange pages s1 e1) (corrected ++ [toString s1 ++ "-" ++ toString e1])
    | none =>
      if isDigits part.data then
        parseLoop N rest (addPage pages (clampPage (natOfDigits part.data) N))
          (corrected ++ [toString (clampPage (natOfDigits part.data) N)])
      else parseLoop N rest pages corrected

/-- Embedding of the client parsePageSelection: the selected page list in
insertion order, plus the canonical spec string written back to the input
field (none when the early empty-input return skips the write-back). -/
def parsePageSelection (input : String) (totalPages : ℕ) : List ℕ × Option String :=
  if input = "" then ([], none)
  else
    let tokens := (jsSplit ',' input).map jsTrim
    let r := parseLoop totalPages tokens [] []
    (r.1, some (joinWith ", " r.2))

/-- Pages contributed by one token of the client parser: the clamped and
swap-corrected closed range for a range token, the clamped singleton for
a numeral token, nothing for a token of any other shape. -/
def expandToken (N : ℕ) (part : String) : List ℕ :=
  match rangeTok part with
  | some ab =>
    let s0 := clampPage ab.1 N
    let e0 := clampPage ab.2 N
    let s1 := if e0 < s0 then e0 else s0
    let e1 := if e0 < s0 then s0 else e0
    List.range' s1 (e1 + 1 - s1)
  | none =>
    if isDigits part.data then [clampPage (natOfDigits part.data) N] else []

/-- Embedding of the selected-page parsing of the cost endpoint: split the
pages parameter on commas, convert each trimmed token with Number(), and
keep the tokens that did not convert to NaN. -/
def parseSelectedPages (pages : String) : List ℤ :=
  ((jsSplit ',' pages).map (fun s => jsNumber (jsTrim s))).filterMap id

/-- Tail of a cached filename after removing the basename-plus-separator
prefix and the first png extension occurrence, as the two chained replace
calls of the cost endpoint do. -/
def cacheKeyTail (base sep f : String) : String :=
  jsReplaceFirst (jsReplaceFirst f (base ++ sep)) ".png"

/-- Page index extracted from a cached filename (none when Number() gives
NaN, in which case the file never matches a selection). -/
def extractPage (base sep f : String) : Option ℤ := jsNumber (cacheKeyTail base sep f)

/-- Sort key used by the comparator of the cost endpoint; matched files
always carry a numeric index, so the default is never reached there. -/
def sortKeyOfFile (base sep : String) (f : String) : ℤ := (extractPage base sep f).getD 0

/-- The directory listing filtered to the basename prefix and then to the
files whose extracted index belongs to the selection, in listing order. -/
def prefilteredFiles (files : List String) (base sep : String) (selected : List ℤ) : List String :=
  (files.filter (fun f => jsStartsWith f (base ++ sep))).filter
    (fun f =>
      match extractPage base sep f with
      | some pg => selected.contains pg
      | none => false)

/-- Model of Array.prototype.sort with the numeric comparator of the cost
endpoint: a stable sort placing elements in nondecreasing key order. -/
def jsSortByKey {α : Type} (key : α → ℤ) (l : List α) : List α :=
  List.insertionSort (fun a b => key a ≤ key b) l

/-- Embedding of the cached-page lookup of the cost endpoint: filter to the
basename prefix, keep the selected extracted indices, sort by index. -/
def matchedFiles (files : List String) (base sep : String) (selected : List ℤ) : List String :=
  jsSortByKey (sortKeyOfFile base sep) (prefilteredFiles files base sep selected)

/-- Successful response body of the cost endpoint. -/
structure CostResult where
  totalCost : ℤ
  usedSections : ℕ
  totalPages : ℕ
deriving DecidableEq

/-- Model of Number(copies || 1): a missing or zero copy count behaves as
one copy. -/
def jsCopies (copies : ℕ) : ℚ := if copies = 0 then 1 else (copies : ℚ)

/-- Shared core of the two revisions of the cost endpoint. The separator is
the character between basename and page index in cached filenames (hyphen
in the first revision, underscore in the second); chargeAlways selects the
first revision's unconditional ink surcharge against the second revision's
color-only surcharge. -/
def calculateCostCore (luma : ℕ × ℕ × ℕ → ℕ) (sep : String) (chargeAlways : Bool)
    (files : List String) (imgOf : String → Image)
    (paper base color pages : String) (copies : ℕ) : Except String CostResult :=
  if paper = "" ∨ base = "" then .error "Missing params"
  else
    let selected := parseSelectedPages pages
    if selected = [] then .error "No pages selected"
    else
      let matched := matchedFiles files base sep selected
      if matched = [] then .error "No cached images found."
      else
        let totalUsedSections :=
          (matched.map (fun f => scanUsedSections (convertToBWIfNeeded luma color (imgOf f)))).sum
        let baseCost : ℚ := if color = "color" then 10 else 5
        let sectionCharge : ℚ :=
          if chargeAlways then (totalUsedSections : ℚ) * (1/2)
          else if color = "color" then (totalUsedSections : ℚ) * (1/2) else 0
        .ok ⟨jsRound ((baseCost * (matched.length : ℚ) + sectionCharge) * jsCopies copies),
             totalUsedSections, matched.length⟩

/-- The cost endpoint of the first (pdf2pic) revision: hyphen-separated
cached filenames and an ink surcharge added in every color mode. -/
def calculateCost_v1 (luma : ℕ × ℕ × ℕ → ℕ) (files : List String) (imgOf : String → Image)
    (paper base color pages : String) (copies : ℕ) : Except String CostResult :=
  calculateCostCore luma "-" true files imgOf paper base color pages copies

/-- The cost endpoint of the second (Ghostscript) revision: underscore
separated cached filenames and an ink surcharge only in color mode. -/
def calculateCost_v2 (luma : ℕ × ℕ × ℕ → ℕ) (files : List String) (imgOf : String → Image)
    (paper base color pages : String) (copies : ℕ) : Except String CostResult :=
  calculateCostCore luma "_" false files imgOf paper base color pages copies

/-- Basename sanitization of the delete endpoint: drop every character that
is not alphanumeric, underscore or hyphen. -/
def sanitizeBaseName (s : String) : String :=
  ⟨s.data.filter (fun c => c.isAlphanum || c == '_' || c == '-')⟩

/-- Partition listing left by the first revision's deletions: only the
files with the legacy hyphen prefix are unlinked. -/
def remainingFiles_v1 (base : String) (files : List String) : List String :=
  files.filter (fun f => !jsStartsWith f (base ++ "-"))

/-- Partition listing left by the second revision's deletions: files with
either the underscore or the legacy hyphen prefix are unlinked. -/
def remainingFiles_v2 (base : String) (files : List String) : List String :=
  files.filter (fun f => !(jsStartsWith f (base ++ "_") || jsStartsWith f (base ++ "-")))

/-- Uploads listing left after both revisions unlink the two normalized
PDFs of the basename. -/
def remainingUploads (base : String) (files : List String) : List String :=
  files.filter (fun f => !(f == base ++ "_letter.pdf" || f == base ++ "_legal.pdf"))

/-- Embedding of the delete-last endpoint of the first revision, acting on
the listings of the two cache partitions and of the uploads directory and
returning the listings left after the deletions: only files with the
legacy hyphen prefix are removed from the partitions, plus the two
normalized PDFs. -/
def deleteLast_v1 (baseRaw : String) (letterFiles legalFiles uploadFiles : List String) :
    Except String (List String × List String × List String) :=
  let base := sanitizeBaseName baseRaw
  if base = "" then .error "Invalid basename"
  else .ok
    (remainingFiles_v1 base letterFiles, remainingFiles_v1 base legalFiles,
     remainingUploads base uploadFiles)

/-- Embedding of the delete-last endpoint of the second revision: files with
either the underscore or the legacy hyphen prefix are removed from both
partitions, plus the two normalized PDFs. -/
def deleteLast_v2 (baseRaw : String) (letterFiles legalFiles uploadFiles : List String) :
    Except String (List String × List String × List String) :=
  let base := sanitizeBaseName baseRaw
  if base = "" then .error "Invalid basename"
  else .ok
    (remainingFiles_v2 base letterFiles, remainingFiles_v2 base legalFiles,
     remainingUploads base uploadFiles)

/-- One page conversion result reported by the pdf2pic engine. -/
structure PicResult where
  success : Bool
  name : String

/-- Embedding of convertPdfToPngsWithPdf2Pic after the engine ran: an engine
rejection is rethrown, and otherwise the successful entries are returned as
paths; a zero-length result only logs a warning and is returned as an
ordinary success. -/
def convertPdfToPngsWithPdf2Pic (engine : Except String (List PicResult)) (outDir : String) :
    Except String (List String) :=
  match engine with
  | .error e => .error ("PDF2PIC conversion failed: " ++ e)
  | .ok result => .ok ((result.filter (fun r => r.success)).map (fun r => outDir ++ "/" ++ r.name))

/-- Embedding of convertPdfToPngsWithGhostscript: a rejected invocation or a
non-warning stderr is a failure; otherwise the output directory listing is
filtered to the underscore-prefixed png files of the basename, and an empty
match list is a failure (the defensive zero-output check). -/
def convertPdfToPngsWithGhostscript (execResult : Except String String)
    (files : List String) (outDir base : String) : Except String (List String) :=
  match execResult with
  | .error e => .error ("Ghostscript conversion failed: " ++ e)
  | .ok stderr =>
    if stderr ≠ "" ∧ jsIncludes stderr "Warning" = false then
      .error "Ghostscript conversion failed: Ghostscript Error"
    else
      let pngPaths :=
        (files.filter (fun f => jsStartsWith f (base ++ "_") && jsEndsWith f ".png")).map
          (fun f => outDir ++ "/" ++ f)
      if pngPaths = [] then
        .error "Ghostscript conversion failed: no PNG files found"
      else .ok pngPaths

/-- Page width or height as read from the PDF: none models a NaN dimension. -/
def sanitizeDim (v : Option ℚ) : ℚ :=
  match v with
  | none => 1
  | some x => x

/-- Dimension after the NaN sanitization and the Math.max(1, d) floor of the
second revision's normalizer. -/
def safeDim (v : Option ℚ) : ℚ := max 1 (sanitizeDim v)

/-- Placement of one embedded source page on its target page: position of
the lower-left corner and drawn width and height, in points. -/
structure DrawOp where
  x : ℚ
  y : ℚ
  w : ℚ
  h : ℚ
deriving DecidableEq

/-- Embedding of the second revision's resizePDF: each source page, given by
its possibly degenerate width and height, is drawn at the origin with the
sanitized dimensions times the computed scale factors. -/
def resizePDF (pages : List (Option ℚ × Option ℚ)) (targetWidth targetHeight : ℚ) :
    List DrawOp :=
  pages.map (fun p =>
    ⟨0, 0, safeDim p.1 * (targetWidth / safeDim p.1), safeDim p.2 * (targetHeight / safeDim p.2)⟩)

/-- Embedding of the first revision's resizePDF: each source page is drawn
at its original size, centered horizontally and aligned to the top edge,
with no sanitization and no scaling. -/
def resizePDF_v1 (pages : List (ℚ × ℚ)) (targetWidth targetHeight : ℚ) : List DrawOp :=
  pages.map (fun p => ⟨(targetWidth - p.1) / 2, targetHeight - p.2, p.1, p.2⟩)

/-- Total used-band count accumulated by the cost endpoint over the matched
cached pages, after the per-page color transform. -/
def costUsedSections (luma : ℕ × ℕ × ℕ → ℕ) (sep : String) (files : List String)
    (imgOf : String → Image) (base color pages : String) : ℕ :=
  ((matchedFiles files base sep (parseSelectedPages pages)).map
    (fun f => scanUsedSections (convertToBWIfNeeded luma color (imgOf f)))).sum

/-- Successful response assembled by the cost endpoint. -/
def costResponse (luma : ℕ × ℕ × ℕ → ℕ) (sep : String) (chargeAlways : Bool)
    (files : List String) (imgOf : String → Image)
    (base color pages : String) (copies : ℕ) : CostResult :=
  ⟨jsRound (((if color = "color" then (10 : ℚ) else 5) *
        ((matchedFiles files base sep (parseSelectedPages pages)).length : ℚ) +
      (if chargeAlways then (costUsedSections luma sep files imgOf base color pages : ℚ) * (1/2)
       else if color = "color" then
         (costUsedSections luma sep files imgOf base color pages : ℚ) * (1/2)
       else 0)) * jsCopies copies),
   costUsedSections luma sep files imgOf base color pages,
   (matchedFiles files base sep (parseSelectedPages pages)).length⟩

-- Basic facts about the scanner

lemma isColored_diag (v : ℕ) : isColored (v, v, v) = false := by
  simp [isColored]

lemma isColored_true_iff (p : ℕ × ℕ × ℕ) :
    isColored p = true ↔ ¬(p.1 = p.2.1 ∧ p.2.1 = p.2.2) := by
  simp only [isColored, Bool.not_eq_true', Bool.and_eq_false_iff, beq_eq_false_iff_ne,
    ne_eq, not_and_or]

lemma bufferPixel_of_gray (img : Image) (h : ∀ y x, isColored (img.px y x) = false)
    (y x : ℕ) : isColored (bufferPixel img y x) = false := by
  unfold bufferPixel
  split
  · exact h y x
  · exact isColored_diag 0

lemma bandUsed_of_gray (img : Image) (h : ∀ y x, isColored (img.px y x) = false)
    (i : ℕ) : bandUsed img i = false := by
  have hp : ∀ y x, isColored (bufferPixel img y x) = false := bufferPixel_of_gray img h
  simp [bandUsed, hp]

lemma scanUsedSections_eq_zero (img : Image)
    (h : ∀ y x, isColored (img.px y x) = false) : scanUsedSections img = 0 := by
  unfold scanUsedSections
  simp [List.filter_eq_nil_iff, bandUsed_of_gray img h]

lemma scanUsedSections_greyscale (luma : ℕ × ℕ × ℕ → ℕ) (img : Image) :
    scanUsedSections (greyscale luma img) = 0 := by
  apply scanUsedSections_eq_zero
  intro y x
  simp only [greyscale]
  exact isColored_diag _

lemma scanUsedSections_le_twelve (img : Image) : scanUsedSections img ≤ 12 := by
  have h := List.length_filter_le (fun i => bandUsed img i) (List.range 12)
  simpa [scanUsedSections] using h

lemma bandUsed_iff (img : Image) (i : ℕ) :
    bandUsed img i = true ↔
      ∃ y, bandStart img i ≤ y ∧ y < bandEnd img i ∧
        ∃ x, x < img.width ∧
          ¬((bufferPixel img y x).1 = (bufferPixel img y x).2.1 ∧
            (bufferPixel img y x).2.1 = (bufferPixel img y x).2.2) := by
  unfold bandUsed
  rw [List.any_eq_true]
  constructor
  · rintro ⟨y, hy, hinner⟩
    rw [List.mem_range'_1] at hy
    rw [List.any_eq_true] at hinner
    obtain ⟨x, hx, hcol⟩ := hinner
    rw [List.mem_range] at hx
    exact ⟨y, hy.1, by omega, x, hx, (isColored_true_iff _).mp hcol⟩
  · rintro ⟨y, h1, h2, x, hx, hcol⟩
    refine ⟨y, ?_, ?_⟩
    · rw [List.mem_range'_1]
      omega
    · rw [List.any_eq_true]
      exact ⟨x, List.mem_range.mpr hx, (isColored_true_iff _).mpr hcol⟩

lemma sectionHeight_pos (img : Image) : 0 < sectionHeight img :=
  lt_of_lt_of_le one_pos (le_max_left 1 _)

lemma bandEnd_le_bandStart_of_lt (img : Image) {i j : ℕ} (hij : i < j) (hj : j ≤ 11) :
    bandEnd img i ≤ bandStart img j := by
  unfold bandEnd bandStart
  rw [if_neg (by omega : ¬ i = 11)]
  exact Nat.mul_le_mul_right _ (by omega)

lemma band_partition (img : Image) (h12 : 12 ≤ img.height) {y : ℕ}
    (hy : y < img.height) :
    ∃! i, i < 12 ∧ bandStart img i ≤ y ∧ y < bandEnd img i := by
  have hsh : 0 < sectionHeight img := sectionHeight_pos img
  have h11 : 11 * sectionHeight img ≤ img.height := by
    have h1 : sectionHeight img = img.height / 12 := by
      have h2 : 1 ≤ img.height / 12 := (Nat.one_le_div_iff (by norm_num)).mpr h12
      unfold sectionHeight
      omega
    rw [h1]
    calc 11 * (img.height / 12) ≤ 12 * (img.height / 12) :=
          Nat.mul_le_mul_right _ (by omega)
      _ ≤ img.height := Nat.mul_div_le img.height 12
  have huniq : ∀ a b : ℕ, a < 12 → b < 12 → bandStart img a ≤ y → y < bandEnd img a →
      bandStart img b ≤ y → y < bandEnd img b → a = b := by
    intro a b ha hb ha1 ha2 hb1 hb2
    rcases lt_trichotomy a b with h | h | h
    · have := bandEnd_le_bandStart_of_lt img h (by omega)
      omega
    · exact h
    · have := bandEnd_le_bandStart_of_lt img h (by omega)
      omega
  obtain ⟨i, hi⟩ : ∃ i, i < 12 ∧ bandStart img i ≤ y ∧ y < bandEnd img i := by
    by_cases hc : y < 11 * sectionHeight img
    · have hidx : y / sectionHeight img < 11 := (Nat.div_lt_iff_lt_mul hsh).mpr hc
      refine ⟨y / sectionHeight img, by omega, ?_, ?_⟩
      · exact Nat.div_mul_le_self y _
      · simp only [bandEnd, if_neg (by omega : ¬ y / sectionHeight img = 11)]
        calc y = sectionHeight img * (y / sectionHeight img) + y % sectionHeight img :=
              (Nat.div_add_mod y _).symm
          _ < sectionHeight img * (y / sectionHeight img) + sectionHeight img := by
              have := Nat.mod_lt y hsh
              omega
          _ = (y / sectionHeight img + 1) * sectionHeight img := by ring
    · refine ⟨11, by omega, by simp only [bandStart]; omega, ?_⟩
      simp only [bandEnd, if_pos rfl]
      exact hy
  exact ⟨i, hi, fun j hj => huniq j i hj.1 hi.1 hj.2.1 hj.2.2 hi.2.1 hi.2.2⟩

/-- C7: the ink-usage scanner reports at most 12 used bands; a band counts
as used exactly when some pixel of its rows, within the image width, has
red, green and blue channel values that are not all equal; for an image at
least 12 rows tall the 12 bands (the last absorbing the remainder of the
integer division of the height by 12) partition the rows exactly; and an
image whose pixels all have three equal channels, in particular an
all-white or an all-black image, yields 0 used bands. -/
theorem scanUsedSections_bands_spec :
    (∀ img : Image, scanUsedSections img ≤ 12) ∧
    (∀ (img : Image) (i : ℕ), bandUsed img i = true ↔
      ∃ y, bandStart img i ≤ y ∧ y < bandEnd img i ∧
        ∃ x, x < img.width ∧
          ¬((bufferPixel img y x).1 = (bufferPixel img y x).2.1 ∧
            (bufferPixel img y x).2.1 = (bufferPixel img y x).2.2)) ∧
    (∀ img : Image, 12 ≤ img.height → ∀ y, y < img.height →
      ∃! i, i < 12 ∧ bandStart img i ≤ y ∧ y < bandEnd img i) ∧
    (∀ w h v : ℕ, scanUsedSections ⟨w, h, fun _ _ => (v, v, v)⟩ = 0) :=
  ⟨scanUsedSections_le_twelve, bandUsed_iff,
   fun img h12 _ hy => band_partition img h12 hy,
   fun _ _ v => scanUsedSections_eq_zero _ (fun _ _ => isColored_diag v)⟩

/-- Witness for the scanner theorem at a concrete 3 by 24 all-white image:
zero used bands, and row 5 falls in band 2 (obtained through the partition
part of the theorem at height 24). -/
theorem scanUsedSections_bands_spec_witness :
    scanUsedSections ⟨3, 24, fun _ _ => (255, 255, 255)⟩ ≤ 12 ∧
    scanUsedSections ⟨3, 24, fun _ _ => (255, 255, 255)⟩ = 0 ∧
    (2 < 12 ∧ bandStart ⟨3, 24, fun _ _ => (255, 255, 255)⟩ 2 ≤ 5 ∧
      5 < bandEnd ⟨3, 24, fun _ _ => (255, 255, 255)⟩ 2) := by
  obtain ⟨h1, _, h3, h4⟩ := scanUsedSections_bands_spec
  obtain ⟨i, hi, huniq⟩ := h3 ⟨3, 24, fun _ _ => (255, 255, 255)⟩ (by norm_num) 5 (by norm_num)
  have h2i : 2 = i := huniq 2 (by decide)
  rw [← h2i] at hi
  exact ⟨h1 _, h4 3 24 255, hi⟩

-- Characterization of the cost endpoint's control flow

lemma calculateCostCore_missing (luma : ℕ × ℕ × ℕ → ℕ) (sep : String) (ca : Bool)
    (files : List String) (imgOf : String → Image) (paper base color pages : String)
    (copies : ℕ) (h : paper = "" ∨ base = "") :
    calculateCostCore luma sep ca files imgOf paper base color pages copies =
      .error "Missing params" := by
  unfold calculateCostCore
  rw [if_pos h]

lemma calculateCostCore_noPages (luma : ℕ × ℕ × ℕ → ℕ) (sep : String) (ca : Bool)
    (files : List String) (imgOf : String → Image) (paper base color pages : String)
    (copies : ℕ) (hp : paper ≠ "") (hb : base ≠ "") (hs : parseSelectedPages pages = []) :
    calculateCostCore luma sep ca files imgOf paper base color pages copies =
      .error "No pages selected" := by
  simp [calculateCostCore, hp, hb, hs]

lemma calculateCostCore_noCache (luma : ℕ × ℕ × ℕ → ℕ) (sep : String) (ca : Bool)
    (files : List String) (imgOf : String → Image) (paper base color pages : String)
    (copies : ℕ) (hp : paper ≠ "") (hb : base ≠ "") (hs : parseSelectedPages pages ≠ [])
    (hm : matchedFiles files base sep (parseSelectedPages pages) = []) :
    calculateCostCore luma sep ca files imgOf paper base color pages copies =
      .error "No cached images found." := by
  simp [calculateCostCore, hp, hb, hs, hm]

lemma calculateCostCore_eq_ok (luma : ℕ × ℕ × ℕ → ℕ) (sep : String) (ca : Bool)
    (files : List String) (imgOf : String → Image) (paper base color pages : String)
    (copies : ℕ) (hp : paper ≠ "") (hb : base ≠ "") (hs : parseSelectedPages pages ≠ [])
    (hm : matchedFiles files base sep (parseSelectedPages pages) ≠ []) :
    calculateCostCore luma sep ca files imgOf paper base color pages copies =
      .ok (costResponse luma sep ca files imgOf base color pages copies) := by
  simp [calculateCostCore, costResponse, costUsedSections, hp, hb, hs, hm]

lemma calculateCostCore_ok_inv (luma : ℕ × ℕ × ℕ → ℕ) (sep : String) (ca : Bool)
    (files : List String) (imgOf : String → Image) (paper base color pages : String)
    (copies : ℕ) (r : CostResult)
    (h : calculateCostCore luma sep ca files imgOf paper base color pages copies = .ok r) :
    paper ≠ "" ∧ base ≠ "" ∧ parseSelectedPages pages ≠ [] ∧
      matchedFiles files base sep (parseSelectedPages pages) ≠ [] ∧
      r = costResponse luma sep ca files imgOf base color pages copies := by
  by_cases h1 : paper = "" ∨ base = ""
  · rw [calculateCostCore_missing luma sep ca files imgOf paper base color pages copies h1] at h
    exact absurd h (by simp)
  · obtain ⟨hp, hb⟩ := not_or.mp h1
    by_cases h2 : parseSelectedPages pages = []
    · rw [calculateCostCore_noPages luma sep ca files imgOf paper base color pages copies
        hp hb h2] at h
      exact absurd h (by simp)
    · by_cases h3 : matchedFiles files base sep (parseSelectedPages pages) = []
      · rw [calculateCostCore_noCache luma sep ca files imgOf paper base color pages copies
          hp hb h2 h3] at h
        exact absurd h (by simp)
      · rw [calculateCostCore_eq_ok luma sep ca files imgOf paper base color pages copies
          hp hb h2 h3] at h
        exact ⟨hp, hb, h2, h3, (Except.ok.inj h).symm⟩

lemma costUsedSections_bw (luma : ℕ × ℕ × ℕ → ℕ) (sep : String) (files : List String)
    (imgOf : String → Image) (base pages : String) :
    costUsedSections luma sep files imgOf base "bw" pages = 0 := by
  apply List.sum_eq_zero
  intro x hx
  simp only [List.mem_map] at hx
  obtain ⟨f, _, rfl⟩ := hx
  simp [convertToBWIfNeeded, scanUsedSections_greyscale]

/-- C1: on every successful cost calculation (at least one cached page
matched), the 0.5-per-band ink surcharge is effectively charged only in
color mode, in both revisions of the endpoint: in bw mode the returned
used-band count is 0 and the total is round(5 x pageCount x copies) --
with the older revision's unconditional surcharge term vanishing because
the pages were grayscaled before scanning -- and in color mode the total
is round((10 x pageCount + 0.5 x usedBands) x copies). -/
theorem calculateCost_ink_surcharge_color_only :
    ∀ (luma : ℕ × ℕ × ℕ → ℕ) (files : List String) (imgOf : String → Image)
      (paper base pages : String) (copies : ℕ) (r : CostResult),
      (calculateCost_v2 luma files imgOf paper base "bw" pages copies = .ok r →
        r.usedSections = 0 ∧
        r.totalCost = jsRound ((5 * (r.totalPages : ℚ)) * jsCopies copies)) ∧
      (calculateCost_v1 luma files imgOf paper base "bw" pages copies = .ok r →
        r.usedSections = 0 ∧
        r.totalCost = jsRound ((5 * (r.totalPages : ℚ)) * jsCopies copies)) ∧
      (calculateCost_v2 luma files imgOf paper base "color" pages copies = .ok r →
        r.totalCost =
          jsRound ((10 * (r.totalPages : ℚ) + (r.usedSections : ℚ) * (1/2)) *
            jsCopies copies)) ∧
      (calculateCost_v1 luma files imgOf paper base "color" pages copies = .ok r →
        r.totalCost =
          jsRound ((10 * (r.totalPages : ℚ) + (r.usedSections : ℚ) * (1/2)) *
            jsCopies copies)) := by
  intro luma files imgOf paper base pages copies r
  refine ⟨?_, ?_, ?_, ?_⟩
  · intro h
    obtain ⟨hp, hb, hs, hm, rfl⟩ :=
      calculateCostCore_ok_inv luma "_" false files imgOf paper base "bw" pages copies r h
    refine ⟨by simp [costResponse, costUsedSections_bw], ?_⟩
    simp only [costResponse, costUsedSections_bw,
      if_neg (show ¬("bw" : String) = "color" by decide)]
    norm_num
  · intro h
    obtain ⟨hp, hb, hs, hm, rfl⟩ :=
      calculateCostCore_ok_inv luma "-" true files imgOf paper base "bw" pages copies r h
    refine ⟨by simp [costResponse, costUsedSections_bw], ?_⟩
    simp only [costResponse, costUsedSections_bw,
      if_neg (show ¬("bw" : String) = "color" by decide)]
    norm_num
  · intro h
    obtain ⟨hp, hb, hs, hm, rfl⟩ :=
      calculateCostCore_ok_inv luma "_" false files imgOf paper base "color" pages copies r h
    simp only [costResponse]
    norm_num
  · intro h
    obtain ⟨hp, hb, hs, hm, rfl⟩ :=
      calculateCostCore_ok_inv luma "-" true files imgOf paper base "color" pages copies r h
    simp only [costResponse]
    norm_num

-- Concrete fixtures used by the witnesses

def lumaZero : ℕ × ℕ × ℕ → ℕ := fun _ => 0

def whiteImage : Image := ⟨3, 24, fun _ _ => (255, 255, 255)⟩

def imgOfWhite : String → Image := fun _ => whiteImage

/-- Witness for the ink-surcharge theorem: one cached page, bw mode, two
copies, total 10 = round(5 x 1 x 2) and zero used bands. -/
theorem calculateCost_ink_surcharge_color_only_witness :
    calculateCost_v2 lumaZero ["b_1.png"] imgOfWhite "letter" "b" "bw" "1" 2 =
      .ok ⟨10, 0, 1⟩ ∧
    ((⟨10, 0, 1⟩ : CostResult).usedSections = 0 ∧
     (⟨10, 0, 1⟩ : CostResult).totalCost =
       jsRound ((5 * (((⟨10, 0, 1⟩ : CostResult).totalPages : ℕ) : ℚ)) * jsCopies 2)) := by
  have hm : matchedFiles ["b_1.png"] "b" "_" (parseSelectedPages "1") = ["b_1.png"] := by
    decide
  have hok : calculateCost_v2 lumaZero ["b_1.png"] imgOfWhite "letter" "b" "bw" "1" 2 =
      .ok ⟨10, 0, 1⟩ := by
    rw [calculateCost_v2, calculateCostCore_eq_ok lumaZero "_" false ["b_1.png"] imgOfWhite
      "letter" "b" "bw" "1" 2 (by decide) (by decide) (by decide) (by simp [hm])]
    have hu : costUsedSections lumaZero "_" ["b_1.png"] imgOfWhite "b" "bw" "1" = 0 :=
      costUsedSections_bw lumaZero "_" ["b_1.png"] imgOfWhite "b" "1"
    simp only [costResponse, hu, hm,
      if_neg (show ¬("bw" : String) = "color" by decide)]
    norm_num [jsRound, jsCopies]
  exact ⟨hok, (calculateCost_ink_surcharge_color_only lumaZero ["b_1.png"] imgOfWhite
    "letter" "b" "1" 2 ⟨10, 0, 1⟩).1 hok⟩

/-- C8: a cost request whose basename, paper partition and selected page
set match zero cached files is answered with the distinct cache-miss
failure message, not with a zero-cost success, in both revisions of the
endpoint (each matching against its own filename separator). -/
theorem calculateCost_cache_miss_fails :
    ∀ (luma : ℕ × ℕ × ℕ → ℕ) (files : List String) (imgOf : String → Image)
      (paper base color pages : String) (copies : ℕ),
      paper ≠ "" → base ≠ "" → parseSelectedPages pages ≠ [] →
      (matchedFiles files base "_" (parseSelectedPages pages) = [] →
        calculateCost_v2 luma files imgOf paper base color pages copies =
          .error "No cached images found.") ∧
      (matchedFiles files base "-" (parseSelectedPages pages) = [] →
        calculateCost_v1 luma files imgOf paper base color pages copies =
          .error "No cached images found.") := by
  intro luma files imgOf paper base color pages copies hp hb hs
  exact ⟨fun hm => calculateCostCore_noCache luma "_" false files imgOf paper base color
      pages copies hp hb hs hm,
    fun hm => calculateCostCore_noCache luma "-" true files imgOf paper base color
      pages copies hp hb hs hm⟩

/-- Witness for the cache-miss theorem: an empty cache partition makes both
revisions answer with the cache-miss failure. -/
theorem calculateCost_cache_miss_fails_witness :
    calculateCost_v2 lumaZero [] imgOfWhite "letter" "b" "color" "1" 1 =
      .error "No cached images found." ∧
    calculateCost_v1 lumaZero [] imgOfWhite "letter" "b" "color" "1" 1 =
      .error "No cached images found." := by
  have h := calculateCost_cache_miss_fails lumaZero [] imgOfWhite "letter" "b" "color" "1" 1
    (by decide) (by decide) (by decide)
  exact ⟨h.1 (by decide), h.2 (by decide)⟩

/-- C9: the cost endpoint splits the pages parameter on commas and converts
each trimmed token with Number(): a range token such as 1-3 converts to NaN
and is silently dropped, so range syntax is never interpreted server-side,
and when every token is dropped the request fails with the no-pages
message, in both revisions. -/
theorem calculateCost_range_tokens_dropped :
    jsNumber "1-3" = none ∧
    parseSelectedPages "1-3" = [] ∧
    parseSelectedPages "5,1-3" = [5] ∧
    (∀ (luma : ℕ × ℕ × ℕ → ℕ) (files : List String) (imgOf : String → Image)
      (paper base color pages : String) (copies : ℕ),
      paper ≠ "" → base ≠ "" → parseSelectedPages pages = [] →
      calculateCost_v2 luma files imgOf paper base color pages copies =
        .error "No pages selected" ∧
      calculateCost_v1 luma files imgOf paper base color pages copies =
        .error "No pages selected") := by
  refine ⟨by decide, by decide, by decide, ?_⟩
  intro luma files imgOf paper base color pages copies hp hb hs
  exact ⟨calculateCostCore_noPages luma "_" false files imgOf paper base color pages copies
      hp hb hs,
    calculateCostCore_noPages luma "-" true files imgOf paper base color pages copies
      hp hb hs⟩

/-- Witness for the range-token theorem: a request whose pages parameter is
the single range token 1-3 fails with the no-pages message. -/
theorem calculateCost_range_tokens_dropped_witness :
    calculateCost_v2 lumaZero ["b_1.png"] imgOfWhite "letter" "b" "color" "1-3" 1 =
      .error "No pages selected" ∧
    calculateCost_v1 lumaZero ["b_1.png"] imgOfWhite "letter" "b" "color" "1-3" 1 =
      .error "No pages selected" :=
  calculateCost_range_tokens_dropped.2.2.2 lumaZero ["b_1.png"] imgOfWhite "letter" "b"
    "color" "1-3" 1 (by decide) (by decide) (by decide)

/-- C10: when at least one cached file matches, selected pages with no
cached file are silently excluded: the endpoint succeeds and its totalPages
field is the matched-file count, in both revisions of the endpoint (each
matching against its own filename separator); concretely a selection of
pages 1 and 2 against a cache holding only page 1 succeeds with totalPages
1, strictly below the 2 requested pages, in both revisions. -/
theorem calculateCost_unmatched_pages_excluded :
    (∀ (luma : ℕ × ℕ × ℕ → ℕ) (files : List String) (imgOf : String → Image)
        (paper base color pages : String) (copies : ℕ),
        paper ≠ "" → base ≠ "" → parseSelectedPages pages ≠ [] →
        matchedFiles files base "_" (parseSelectedPages pages) ≠ [] →
        ∃ r, calculateCost_v2 luma files imgOf paper base color pages copies = .ok r ∧
          r.totalPages = (matchedFiles files base "_" (parseSelectedPages pages)).length) ∧
    (∀ (luma : ℕ × ℕ × ℕ → ℕ) (files : List String) (imgOf : String → Image)
        (paper base color pages : String) (copies : ℕ),
        paper ≠ "" → base ≠ "" → parseSelectedPages pages ≠ [] →
        matchedFiles files base "-" (parseSelectedPages pages) ≠ [] →
        ∃ r, calculateCost_v1 luma files imgOf paper base color pages copies = .ok r ∧
          r.totalPages = (matchedFiles files base "-" (parseSelectedPages pages)).length) ∧
    ((parseSelectedPages "1,2").length = 2 ∧
      matchedFiles ["b_1.png"] "b" "_" (parseSelectedPages "1,2") = ["b_1.png"] ∧
      calculateCost_v2 lumaZero ["b_1.png"] imgOfWhite "letter" "b" "color" "1,2" 1 =
        .ok ⟨10, 0, 1⟩ ∧
      matchedFiles ["b-1.png"] "b" "-" (parseSelectedPages "1,2") = ["b-1.png"] ∧
      calculateCost_v1 lumaZero ["b-1.png"] imgOfWhite "letter" "b" "color" "1,2" 1 =
        .ok ⟨10, 0, 1⟩) := by
  refine ⟨?_, ?_, ?_⟩
  · intro luma files imgOf paper base color pages copies hp hb hs hm
    exact ⟨costResponse luma "_" false files imgOf base color pages copies,
      calculateCostCore_eq_ok luma "_" false files imgOf paper base color pages copies
        hp hb hs hm,
      by simp [costResponse]⟩
  · intro luma files imgOf paper base color pages copies hp hb hs hm
    exact ⟨costResponse luma "-" true files imgOf base color pages copies,
      calculateCostCore_eq_ok luma "-" true files imgOf paper base color pages copies
        hp hb hs hm,
      by simp [costResponse]⟩
  · have hm2 : matchedFiles ["b_1.png"] "b" "_" (parseSelectedPages "1,2") = ["b_1.png"] := by
      decide
    have hm1 : matchedFiles ["b-1.png"] "b" "-" (parseSelectedPages "1,2") = ["b-1.png"] := by
      decide
    have hu2 : costUsedSections lumaZero "_" ["b_1.png"] imgOfWhite "b" "color" "1,2" = 0 := by
      decide
    have hu1 : costUsedSections lumaZero "-" ["b-1.png"] imgOfWhite "b" "color" "1,2" = 0 := by
      decide
    refine ⟨by decide, hm2, ?_, hm1, ?_⟩
    · rw [calculateCost_v2, calculateCostCore_eq_ok lumaZero "_" false ["b_1.png"] imgOfWhite
        "letter" "b" "color" "1,2" 1 (by decide) (by decide) (by decide) (by simp [hm2])]
      simp only [costResponse, hu2, hm2, if_pos rfl]
      norm_num [jsRound, jsCopies]
    · rw [calculateCost_v1, calculateCostCore_eq_ok lumaZero "-" true ["b-1.png"] imgOfWhite
        "letter" "b" "color" "1,2" 1 (by decide) (by decide) (by decide) (by simp [hm1])]
      simp only [costResponse, hu1, hm1, if_pos rfl, if_true]
      norm_num [jsRound, jsCopies]

/-- Witness for the unmatched-pages theorem at the concrete one-file cache
with a two-page selection, for both revisions of the endpoint. -/
theorem calculateCost_unmatched_pages_excluded_witness :
    (calculateCost_v2 lumaZero ["b_1.png"] imgOfWhite "letter" "b" "color" "1,2" 1 =
        .ok ⟨10, 0, 1⟩ ∧
      (⟨10, 0, 1⟩ : CostResult).totalPages =
        (matchedFiles ["b_1.png"] "b" "_" (parseSelectedPages "1,2")).length) ∧
    (calculateCost_v1 lumaZero ["b-1.png"] imgOfWhite "letter" "b" "color" "1,2" 1 =
        .ok ⟨10, 0, 1⟩ ∧
      (⟨10, 0, 1⟩ : CostResult).totalPages =
        (matchedFiles ["b-1.png"] "b" "-" (parseSelectedPages "1,2")).length) := by
  obtain ⟨hgen2, hgen1, hconc⟩ := calculateCost_unmatched_pages_excluded
  obtain ⟨r2, hr2, ht2⟩ := hgen2 lumaZero ["b_1.png"] imgOfWhite "letter" "b" "color" "1,2" 1
    (by decide) (by decide) (by decide) (by decide)
  obtain ⟨r1, hr1, ht1⟩ := hgen1 lumaZero ["b-1.png"] imgOfWhite "letter" "b" "color" "1,2" 1
    (by decide) (by decide) (by decide) (by decide)
  have he2 : r2 = ⟨10, 0, 1⟩ := Except.ok.inj (hr2.symm.trans hconc.2.2.1)
  have he1 : r1 = ⟨10, 0, 1⟩ := Except.ok.inj (hr1.symm.trans hconc.2.2.2.2)
  rw [he2] at hr2 ht2
  rw [he1] at hr1 ht1
  exact ⟨⟨hr2, ht2⟩, ⟨hr1, ht1⟩⟩

-- Facts about the client page-selection parser

lemma mem_addPage {pages : List ℕ} {n m : ℕ} : m ∈ addPage pages n ↔ m ∈ pages ∨ m = n := by
  unfold addPage
  split
  · rename_i h
    exact ⟨Or.inl, fun hm => hm.elim id (fun e => e ▸ h)⟩
  · simp

lemma nodup_addPage {pages : List ℕ} {n : ℕ} (h : pages.Nodup) : (addPage pages n).Nodup := by
  unfold addPage
  split
  · exact h
  · rename_i hn
    rw [List.nodup_append]
    exact ⟨h, List.nodup_singleton n, by simpa using hn⟩

lemma mem_foldl_addPage (l : List ℕ) (pages : List ℕ) (m : ℕ) :
    m ∈ l.foldl addPage pages ↔ m ∈ pages ∨ m ∈ l := by
  induction l generalizing pages with
  | nil => simp
  | cons a l ih =>
    rw [List.foldl_cons, ih, mem_addPage]
    simp only [List.mem_cons]
    tauto

lemma nodup_foldl_addPage (l : List ℕ) (pages : List ℕ) (h : pages.Nodup) :
    (l.foldl addPage pages).Nodup := by
  induction l generalizing pages with
  | nil => exact h
  | cons a l ih => exact ih _ (nodup_addPage h)

lemma mem_addRange {pages : List ℕ} {s e m : ℕ} :
    m ∈ addRange pages s e ↔ m ∈ pages ∨ m ∈ List.range' s (e + 1 - s) :=
  mem_foldl_addPage _ pages m

lemma clampPage_bounds (n N : ℕ) (hN : 1 ≤ N) :
    1 ≤ clampPage n N ∧ clampPage n N ≤ N := by
  unfold clampPage
  omega

lemma expandToken_bounds (N : ℕ) (t : String) (hN : 1 ≤ N) :
    ∀ m ∈ expandToken N t, 1 ≤ m ∧ m ≤ N := by
  intro m hm
  unfold expandToken at hm
  cases hrt : rangeTok t with
  | some ab =>
    rw [hrt] at hm
    simp only at hm
    have h1 := clampPage_bounds ab.1 N hN
    have h2 := clampPage_bounds ab.2 N hN
    rw [List.mem_range'_1] at hm
    split at hm <;> omega
  | none =>
    rw [hrt] at hm
    simp only at hm
    split at hm
    · have h1 := clampPage_bounds (natOfDigits t.data) N hN
      simp only [List.mem_singleton] at hm
      omega
    · simp at hm

lemma parseLoop_mem (N : ℕ) (tokens : List String) (pages : List ℕ)
    (corrected : List String) (m : ℕ) :
    m ∈ (parseLoop N tokens pages corrected).1 ↔
      m ∈ pages ∨ ∃ t ∈ tokens, m ∈ expandToken N t := by
  induction tokens generalizing pages corrected with
  | nil => simp [parseLoop]
  | cons t rest ih =>
    cases hrt : rangeTok t with
    | some ab =>
      simp only [parseLoop, hrt, ih, mem_addRange, expandToken, List.mem_cons]
      constructor
      · rintro ((h | h) | ⟨u, hu, hmu⟩)
        · exact Or.inl h
        · exact Or.inr ⟨t, Or.inl rfl, by simp only [expandToken, hrt]; exact h⟩
        · exact Or.inr ⟨u, Or.inr hu, hmu⟩
      · rintro (h | ⟨u, (rfl | hu), hmu⟩)
        · exact Or.inl (Or.inl h)
        · simp only [expandToken, hrt] at hmu
          exact Or.inl (Or.inr hmu)
        · exact Or.inr ⟨u, hu, hmu⟩
    | none =>
      by_cases hd : isDigits t.data = true
      · simp only [parseLoop, hrt, hd, eq_self_iff_true, if_true, ih, mem_addPage,
          List.mem_cons]
        constructor
        · rintro ((h | h) | ⟨u, hu, hmu⟩)
          · exact Or.inl h
          · exact Or.inr ⟨t, Or.inl rfl, by simp [expandToken, hrt, hd, h]⟩
          · exact Or.inr ⟨u, Or.inr hu, hmu⟩
        · rintro (h | ⟨u, (rfl | hu), hmu⟩)
          · exact Or.inl (Or.inl h)
          · simp only [expandToken, hrt, hd, if_true, List.mem_singleton] at hmu
            exact Or.inl (Or.inr hmu)
          · exact Or.inr ⟨u, hu, hmu⟩
      · rw [Bool.not_eq_true] at hd
        simp only [parseLoop, hrt, hd, Bool.false_eq_true, if_false, ih, List.mem_cons]
        constructor
        · rintro (h | ⟨u, hu, hmu⟩)
          · exact Or.inl h
          · exact Or.inr ⟨u, Or.inr hu, hmu⟩
        · rintro (h | ⟨u, (rfl | hu), hmu⟩)
          · exact Or.inl h
          · simp [expandToken, hrt, hd] at hmu
          · exact Or.inr ⟨u, hu, hmu⟩

lemma parseLoop_nodup (N : ℕ) (tokens : List String) (pages : List ℕ)
    (corrected : List String) (h : pages.Nodup) :
    (parseLoop N tokens pages corrected).1.Nodup := by
  induction tokens generalizing pages corrected with
  | nil => exact h
  | cons t rest ih =>
    cases hrt : rangeTok t with
    | some ab =>
      simp only [parseLoop, hrt]
      exact ih _ _ (nodup_foldl_addPage _ _ h)
    | none =>
      by_cases hd : isDigits t.data = true
      · simp only [parseLoop, hrt, hd, eq_self_iff_true, if_true]
        exact ih _ _ (nodup_addPage h)
      · rw [Bool.not_eq_true] at hd
        simp only [parseLoop, hrt, hd, Bool.false_eq_true, if_false]
        exact ih _ _ h

/-- C2: for every page count N at least 1 and every spec string, the client
parser returns a duplicate-free list whose members all lie between 1 and N,
and a number belongs to the result exactly when some comma token expands to
it (range tokens clamped into the range from 1 to N, swapped when reversed,
single numerals clamped the same way, other tokens dropped); concretely the
spec 5-2 with N = 10 yields the pages 2, 3, 4, 5 with canonical written-back
spec 2-5, and the spec 0,99 with N = 10 yields the pages 1 and 10. -/
theorem parsePageSelection_spec :
    (∀ (input : String) (N : ℕ), 1 ≤ N →
      (parsePageSelection input N).1.Nodup ∧
      (∀ m ∈ (parsePageSelection input N).1, 1 ≤ m ∧ m ≤ N) ∧
      (∀ m, m ∈ (parsePageSelection input N).1 ↔
        ∃ t ∈ (jsSplit ',' input).map jsTrim, m ∈ expandToken N t)) ∧
    parsePageSelection "5-2" 10 = ([2, 3, 4, 5], some "2-5") ∧
    parsePageSelection "0,99" 10 = ([1, 10], some "1, 10") := by
  refine ⟨?_, by decide, by decide⟩
  intro input N hN
  by_cases hin : input = ""
  · subst hin
    refine ⟨by simp [parsePageSelection], by simp [parsePageSelection], ?_⟩
    intro m
    have hexp : expandToken N "" = [] := rfl
    have htok : (jsSplit ',' "").map jsTrim = [""] := by decide
    simp [parsePageSelection, htok, hexp]
  · simp only [parsePageSelection, if_neg hin]
    refine ⟨parseLoop_nodup N _ [] [] List.nodup_nil, ?_, ?_⟩
    · intro m hm
      rw [parseLoop_mem] at hm
      rcases hm with h | ⟨t, _, hmt⟩
      · simp at h
      · exact expandToken_bounds N t hN m hmt
    · intro m
      rw [parseLoop_mem]
      simp

/-- Witness for the parser theorem at the spec 0,99 with N = 10: the result
is duplicate-free and its member 10 is within bounds. -/
theorem parsePageSelection_spec_witness :
    (parsePageSelection "0,99" 10).1.Nodup ∧ 1 ≤ 10 ∧ 10 ≤ 10 := by
  have h := parsePageSelection_spec.1 "0,99" 10 (by norm_num)
  exact ⟨h.1, h.2.1 10 (by decide)⟩

-- Facts about the lookup sort of the cost endpoint

lemma jsSortByKey_sorted {α : Type} (key : α → ℤ) (l : List α) :
    List.Sorted (fun a b => key a ≤ key b) (jsSortByKey key l) := by
  haveI : IsTotal α (fun a b => key a ≤ key b) := ⟨fun a b => le_total (key a) (key b)⟩
  haveI : IsTrans α (fun a b => key a ≤ key b) := ⟨fun a b c hab hbc => le_trans hab hbc⟩
  exact List.sorted_insertionSort _ l

lemma jsSortByKey_perm {α : Type} (key : α → ℤ) (l : List α) :
    (jsSortByKey key l).Perm l :=
  List.perm_insertionSort _ l

/-- C6 counterexample: two cached filenames with the same extracted page
index (a zero-padded and a plain spelling of page 3) are both matched, and
the returned list is not strictly ascending by extracted index. -/
theorem matchedFiles_equal_indices_not_strict :
    (matchedFiles ["b_03.png", "b_3.png"] "b" "_" [3]).map (sortKeyOfFile "b" "_") =
      [3, 3] ∧
    ¬((matchedFiles ["b_03.png", "b_3.png"] "b" "_" [3]).map
        (sortKeyOfFile "b" "_")).Sorted (· < ·) := by
  constructor
  · decide
  · intro h
    rw [(by decide : (matchedFiles ["b_03.png", "b_3.png"] "b" "_" [3]).map
      (sortKeyOfFile "b" "_") = [3, 3])] at h
    exact absurd (List.rel_of_sorted_cons h 3 (List.mem_singleton_self 3)) (by norm_num)

/-- C6 amended: the lookup of the cost endpoint returns the matched
filenames in nondecreasing order of their extracted page index (a
permutation of the prefix-and-selection filter of the listing), and the
order is strictly ascending whenever the extracted indices of the matched
files are pairwise distinct. With duplicate extracted indices (possible
only for non-canonical filenames) the order is nondecreasing, not strict. -/
theorem matchedFiles_sorted_by_index :
    ∀ (files : List String) (base sep : String) (selected : List ℤ),
      ((matchedFiles files base sep selected).map (sortKeyOfFile base sep)).Sorted (· ≤ ·) ∧
      (matchedFiles files base sep selected).Perm
        (prefilteredFiles files base sep selected) ∧
      (((prefilteredFiles files base sep selected).map (sortKeyOfFile base sep)).Nodup →
        ((matchedFiles files base sep selected).map (sortKeyOfFile base sep)).Sorted
          (· < ·)) := by
  intro files base sep selected
  have hperm : (matchedFiles files base sep selected).Perm
      (prefilteredFiles files base sep selected) := jsSortByKey_perm _ _
  have hsorted := jsSortByKey_sorted (sortKeyOfFile base sep)
    (prefilteredFiles files base sep selected)
  have hmap : ((matchedFiles files base sep selected).map (sortKeyOfFile base sep)).Sorted
      (· ≤ ·) := (List.pairwise_map).mpr hsorted
  refine ⟨hmap, hperm, ?_⟩
  intro hnd
  have hnd2 : ((matchedFiles files base sep selected).map (sortKeyOfFile base sep)).Nodup :=
    ((hperm.map (sortKeyOfFile base sep)).nodup_iff).mpr hnd
  exact hmap.lt_of_le hnd2

/-- Witness for the lookup-sort theorem: two canonically named cached pages
listed out of order come back strictly ascending by page index. -/
theorem matchedFiles_sorted_by_index_witness :
    ((matchedFiles ["b_2.png", "b_1.png"] "b" "_" [1, 2]).map
      (sortKeyOfFile "b" "_")).Sorted (· < ·) :=
  (matchedFiles_sorted_by_index ["b_2.png", "b_1.png"] "b" "_" [1, 2]).2.2 (by decide)

-- Facts about the delete-last endpoint

lemma matchedFiles_eq_nil_of_unrelated (files : List String) (base sep : String)
    (selected : List ℤ) (h : ∀ f ∈ files, jsStartsWith f (base ++ sep) = false) :
    matchedFiles files base sep selected = [] := by
  have h1 : files.filter (fun f => jsStartsWith f (base ++ sep)) = [] :=
    List.filter_eq_nil_iff.mpr (fun a ha => by simp [h a ha])
  unfold matchedFiles prefilteredFiles jsSortByKey
  rw [h1]
  rfl

/-- C5 counterexample: the first revision's delete endpoint only removes the
legacy hyphen-prefixed files, so a cached file named with the canonical
underscore prefix survives the invalidation. -/
theorem deleteLast_v1_keeps_underscore_files :
    jsStartsWith "b_1.png" ("b" ++ "_") = true ∧
    deleteLast_v1 "b" ["b_1.png"] [] [] = .ok (["b_1.png"], [], []) := by
  exact ⟨by decide, by rfl⟩

/-- C5 amended: for every valid basename, the second revision's delete
endpoint removes from both partitions every file carrying either the
underscore or the legacy hyphen prefix, plus the two normalized PDFs, and a
subsequent lookup for the basename in either partition is empty; the first
revision removes only the legacy hyphen-prefixed files (plus the two PDFs),
leaving underscore-prefixed files behind, though its own hyphen-based
lookup also comes back empty afterwards. -/
theorem deleteLast_invalidates_cache :
    ∀ (base : String) (letterFiles legalFiles uploadFiles : List String),
      sanitizeBaseName base = base → base ≠ "" →
      deleteLast_v2 base letterFiles legalFiles uploadFiles =
        .ok (remainingFiles_v2 base letterFiles, remainingFiles_v2 base legalFiles,
          remainingUploads base uploadFiles) ∧
      (∀ f ∈ remainingFiles_v2 base letterFiles,
        jsStartsWith f (base ++ "_") = false ∧ jsStartsWith f (base ++ "-") = false) ∧
      (∀ f ∈ remainingFiles_v2 base legalFiles,
        jsStartsWith f (base ++ "_") = false ∧ jsStartsWith f (base ++ "-") = false) ∧
      (base ++ "_letter.pdf") ∉ remainingUploads base uploadFiles ∧
      (base ++ "_legal.pdf") ∉ remainingUploads base uploadFiles ∧
      (∀ selected : List ℤ,
        matchedFiles (remainingFiles_v2 base letterFiles) base "_" selected = [] ∧
        matchedFiles (remainingFiles_v2 base legalFiles) base "_" selected = []) ∧
      deleteLast_v1 base letterFiles legalFiles uploadFiles =
        .ok (remainingFiles_v1 base letterFiles, remainingFiles_v1 base legalFiles,
          remainingUploads base uploadFiles) ∧
      (∀ selected : List ℤ,
        matchedFiles (remainingFiles_v1 base letterFiles) base "-" selected = [] ∧
        matchedFiles (remainingFiles_v1 base legalFiles) base "-" selected = []) := by
  intro base letterFiles legalFiles uploadFiles hsan hne
  have hval : ∀ files : List String, ∀ f ∈ remainingFiles_v2 base files,
      jsStartsWith f (base ++ "_") = false ∧ jsStartsWith f (base ++ "-") = false := by
    intro files f hf
    rw [remainingFiles_v2, List.mem_filter] at hf
    have h2 := hf.2
    rw [Bool.not_eq_true', Bool.or_eq_false_iff] at h2
    exact h2
  have hval1 : ∀ files : List String, ∀ f ∈ remainingFiles_v1 base files,
      jsStartsWith f (base ++ "-") = false := by
    intro files f hf
    rw [remainingFiles_v1, List.mem_filter] at hf
    have h2 := hf.2
    rwa [Bool.not_eq_true'] at h2
  have hup : ∀ side : String, (base ++ side) ∉ remainingUploads base uploadFiles ∨
      (side ≠ "_letter.pdf" ∧ side ≠ "_legal.pdf") := by
    intro side
    by_cases hs : side = "_letter.pdf" ∨ side = "_legal.pdf"
    · left
      intro hmem
      rw [remainingUploads, List.mem_filter] at hmem
      rcases hs with rfl | rfl <;> simp at hmem
    · right
      exact not_or.mp hs
  refine ⟨?_, hval letterFiles, hval legalFiles, ?_, ?_, ?_, ?_, ?_⟩
  · simp only [deleteLast_v2, hsan, if_neg hne]
  · rcases hup "_letter.pdf" with h | h
    · exact h
    · exact absurd rfl h.1
  · rcases hup "_legal.pdf" with h | h
    · exact h
    · exact absurd rfl h.2
  · intro selected
    exact ⟨matchedFiles_eq_nil_of_unrelated _ _ _ _ (fun f hf => (hval letterFiles f hf).1),
      matchedFiles_eq_nil_of_unrelated _ _ _ _ (fun f hf => (hval legalFiles f hf).1)⟩
  · simp only [deleteLast_v1, hsan, if_neg hne]
  · intro selected
    exact ⟨matchedFiles_eq_nil_of_unrelated _ _ _ _ (fun f hf => hval1 letterFiles f hf),
      matchedFiles_eq_nil_of_unrelated _ _ _ _ (fun f hf => hval1 legalFiles f hf)⟩

/-- Witness for the invalidation theorem on a concrete mixed listing:
the second revision's deletion result and an empty lookup afterwards. -/
theorem deleteLast_invalidates_cache_witness :
    deleteLast_v2 "b" ["b_1.png", "b-2.png", "c_1.png"] [] ["b_letter.pdf"] =
      .ok (remainingFiles_v2 "b" ["b_1.png", "b-2.png", "c_1.png"],
        remainingFiles_v2 "b" [], remainingUploads "b" ["b_letter.pdf"]) ∧
    matchedFiles (remainingFiles_v2 "b" ["b_1.png", "b-2.png", "c_1.png"]) "b" "_"
      [1, 2] = [] := by
  have h := deleteLast_invalidates_cache "b" ["b_1.png", "b-2.png", "c_1.png"] []
    ["b_letter.pdf"] (by decide) (by decide)
  exact ⟨h.1, (h.2.2.2.2.2.1 [1, 2]).1⟩

-- Facts about the rasterization adapters

/-- C3 counterexample: the pdf2pic adapter, given an engine run that exits
without a fatal error but reports zero successful pages, returns an
ordinary success carrying an empty path list instead of reporting failure. -/
theorem pdf2pic_zero_outputs_reports_success :
    convertPdfToPngsWithPdf2Pic (Except.ok []) "out" = Except.ok ([] : List String) :=
  rfl

/-- C3 amended: the Ghostscript adapter treats zero matching output files
after a non-fatal engine exit as a failure and succeeds exactly on a
nonempty match list; the pdf2pic adapter of the first revision, however,
returns whatever successful entries the engine reported -- possibly an
empty list -- as a success, only logging a warning on zero outputs. -/
theorem rasterization_zero_outputs_check :
    ∀ (stderr : String) (files : List String) (outDir base : String),
      (stderr = "" ∨ jsIncludes stderr "Warning" = true) →
      ((files.filter (fun f => jsStartsWith f (base ++ "_") && jsEndsWith f ".png")) = [] →
        convertPdfToPngsWithGhostscript (.ok stderr) files outDir base =
          .error "Ghostscript conversion failed: no PNG files found") ∧
      ((files.filter (fun f => jsStartsWith f (base ++ "_") && jsEndsWith f ".png")) ≠ [] →
        convertPdfToPngsWithGhostscript (.ok stderr) files outDir base =
          .ok ((files.filter
              (fun f => jsStartsWith f (base ++ "_") && jsEndsWith f ".png")).map
            (fun f => outDir ++ "/" ++ f))) ∧
      (∀ result : List PicResult,
        convertPdfToPngsWithPdf2Pic (.ok result) outDir =
          .ok ((result.filter (fun r => r.success)).map
            (fun r => outDir ++ "/" ++ r.name))) := by
  intro stderr files outDir base hok
  have hcond : ¬(stderr ≠ "" ∧ jsIncludes stderr "Warning" = false) := by
    rcases hok with h | h
    · exact fun hc => hc.1 h
    · exact fun hc => by rw [h] at hc; exact absurd hc.2 (by simp)
  refine ⟨?_, ?_, fun result => rfl⟩
  · intro hempty
    unfold convertPdfToPngsWithGhostscript
    dsimp only
    rw [if_neg hcond]
    simp [hempty]
  · intro hne
    unfold convertPdfToPngsWithGhostscript
    dsimp only
    rw [if_neg hcond]
    have hmapne : (files.filter
        (fun f => jsStartsWith f (base ++ "_") && jsEndsWith f ".png")).map
        (fun f => outDir ++ "/" ++ f) ≠ [] := by
      simpa using hne
    simp [hmapne]

/-- Witness for the zero-output theorem: an empty directory makes the
Ghostscript adapter fail, one matching file makes it succeed. -/
theorem rasterization_zero_outputs_check_witness :
    convertPdfToPngsWithGhostscript (.ok "") [] "out" "b" =
      .error "Ghostscript conversion failed: no PNG files found" ∧
    convertPdfToPngsWithGhostscript (.ok "") ["b_1.png"] "out" "b" =
      .ok ["out/b_1.png"] := by
  have h1 := rasterization_zero_outputs_check "" [] "out" "b" (Or.inl rfl)
  have h2 := rasterization_zero_outputs_check "" ["b_1.png"] "out" "b" (Or.inl rfl)
  refine ⟨h1.1 (by decide), ?_⟩
  rw [h2.2.1 (by decide)]
  exact congrArg Except.ok (by decide)

-- Facts about the PDF normalizer

/-- C4 counterexample: the first revision's normalizer draws a 100 by 100
source page on a 612 by 792 target at its original size, centered
horizontally and top-aligned, which does not fill the target rectangle. -/
theorem resizePDF_v1_draws_unscaled :
    resizePDF_v1 [((100 : ℚ), 100)] 612 792 = [⟨256, 692, 100, 100⟩] ∧
    (⟨256, 692, 100, 100⟩ : DrawOp) ≠ ⟨0, 0, 612, 792⟩ := by
  constructor
  · norm_num [resizePDF_v1]
  · intro h
    have hw := congrArg DrawOp.w h
    norm_num at hw

/-- C4 amended: the second revision's normalizer draws every source page at
the origin stretched to exactly fill the target rectangle, with independent
scale factors on each axis; degenerate dimensions are sanitized (NaN maps
to 1, then a floor of 1 point is applied, so a 0ximes0 source page scales by
division by 1, never by 0), and the output has one page per source page.
The first revision instead draws pages unscaled at their original size. -/
theorem resizePDF_fills_target :
    ∀ (pages : List (Option ℚ × Option ℚ)) (targetWidth targetHeight : ℚ),
      (resizePDF pages targetWidth targetHeight).length = pages.length ∧
      (∀ d ∈ resizePDF pages targetWidth targetHeight,
        d = ⟨0, 0, targetWidth, targetHeight⟩) ∧
      (∀ v : Option ℚ, 1 ≤ safeDim v) ∧
      safeDim (some 0) = 1 ∧ sanitizeDim none = 1 := by
  intro pages tw th
  have hsafe : ∀ v : Option ℚ, 1 ≤ safeDim v := fun v => le_max_left 1 _
  have hpos : ∀ v : Option ℚ, safeDim v ≠ 0 := fun v =>
    ne_of_gt (lt_of_lt_of_le one_pos (hsafe v))
  refine ⟨List.length_map _ _, ?_, hsafe, by norm_num [safeDim, sanitizeDim], rfl⟩
  intro d hd
  rw [resizePDF, List.mem_map] at hd
  obtain ⟨p, _, rfl⟩ := hd
  have h1 : safeDim p.1 * (tw / safeDim p.1) = tw := by
    rw [mul_comm]
    exact div_mul_cancel₀ tw (hpos p.1)
  have h2 : safeDim p.2 * (th / safeDim p.2) = th := by
    rw [mul_comm]
    exact div_mul_cancel₀ th (hpos p.2)
  simp [h1, h2]

/-- Witness for the fill-target theorem at a degenerate 0 by 0 source page
on the letter geometry. -/
theorem resizePDF_fills_target_witness :
    resizePDF [(some 0, some 0)] 612 792 = [⟨0, 0, 612, 792⟩] ∧
    1 ≤ safeDim (some 0) := by
  have h := resizePDF_fills_target [(some 0, some 0)] 612 792
  constructor
  · have hm : resizePDF [(some 0, some 0)] 612 792 =
        [⟨0, 0, safeDim (some 0) * (612 / safeDim (some 0)),
          safeDim (some 0) * (792 / safeDim (some 0))⟩] := rfl
    have hmem : (⟨0, 0, safeDim (some 0) * (612 / safeDim (some 0)),
        safeDim (some 0) * (792 / safeDim (some 0))⟩ : DrawOp) ∈
        resizePDF [(some 0, some 0)] 612 792 := by
      rw [hm]
      exact List.mem_singleton_self _
    have heq := h.2.1 _ hmem
    rw [hm, heq]
  · exact h.2.2.1 (some 0)

end PisoPrint
